import Mathlib

/-!
Shallow embedding of the `sop` package manager's dependency engine
(src/toml_parser.rs, src/commands/{add,remove,setup,update}.rs).

Modelling choices:
* The on-disk state is `St`: the parsed manifest (`SopToml`) plus the
  module cache (`Cache`), an association list mapping a package name to
  the directory's contents.  Commands are functions `St → Res` returning
  an optional error, the final on-disk state and a trace of filesystem
  events; the manifest-file-missing branch (`NotFound`) common to every
  command is outside the states modelled here (the manifest is given).
* Filesystem writes can fail; we inject faults through an oracle
  `fault : String → Bool` saying whether writing the package's metadata
  file fails (`IoError`), the first write `install_package` performs after
  creating the directory.
* The `rand::random()` registry decision in `check_latest_version` is an
  injected boolean (`hasUpdate`), and for command runs an oracle
  `String → String → Bool` of the package name and current version.
* Rust `HashMap`s are association lists with first-match lookup; TOML
  rejects duplicate keys, so manifests parsed from disk have distinct keys.
* Machine integers: Rust `u32` parsing is `parseU32`, returning a `Nat`
  below 2^32 exactly when the Rust parse succeeds; the `u32` increment in
  `check_latest_version` carries an explicit `% 2^32`.
-/

namespace Sop

/-- The spec's error kinds (§7).  Rust uses `anyhow` messages; each
distinct error site maps to the spec kind classifying it: the
"already in your dependencies" message is `alreadyPresent`, the
"not found in your dependencies" and "No dependencies found in sop.toml"
messages are dependency-map membership violations, `notPresent`. -/
inductive Err where
  | notFound
  | parseError
  | alreadyPresent
  | notPresent
  | ioError
deriving DecidableEq, Repr

/-- `ProjectConfig` of src/toml_parser.rs lines 16-35: `name`, `version`,
`status` and `entry` have no `#[serde(default)]`; the rest default. -/
structure ProjectConfig where
  name : String
  version : String
  status : String
  description : String
  license : String
  author : String
  repository : String
  homepage : String
  entry : String
  keywords : List String
  categories : List String
deriving DecidableEq, Repr

/-- `SopToml` of src/toml_parser.rs lines 9-12. -/
structure SopToml where
  project : ProjectConfig
  dependencies : Option (List (String × String))
deriving DecidableEq, Repr

/-! ### The raw TOML document and the serde-derived reader (src/toml_parser.rs) -/

/-- A TOML value at the granularity the schema distinguishes: a string,
a homogeneous string array, or anything else. -/
inductive RawValue where
  | str (s : String)
  | strList (l : List String)
  | other
deriving DecidableEq, Repr

/-- The `[project]` table as read from disk: each field present or absent. -/
structure RawProject where
  name : Option RawValue
  version : Option RawValue
  status : Option RawValue
  description : Option RawValue
  license : Option RawValue
  author : Option RawValue
  repository : Option RawValue
  homepage : Option RawValue
  entry : Option RawValue
  keywords : Option RawValue
  categories : Option RawValue
deriving DecidableEq, Repr

/-- A raw manifest document: the `[project]` table (or its absence) and the
`[dependencies]` table's key/value pairs (or its absence). -/
structure RawDoc where
  project : Option RawProject
  dependencies : Option (List (String × RawValue))
deriving DecidableEq, Repr

/-- serde: a `String` field with no default — present and a string, or error. -/
def reqStr : Option RawValue → Except Err String
  | some (.str s) => .ok s
  | _ => .error .parseError

/-- serde: a `#[serde(default)] String` field — absent defaults to `""`. -/
def optStr : Option RawValue → Except Err String
  | some (.str s) => .ok s
  | none => .ok ""
  | some _ => .error .parseError

/-- serde: a `#[serde(default)] Vec<String>` field — absent defaults to `[]`. -/
def optStrList : Option RawValue → Except Err (List String)
  | some (.strList l) => .ok l
  | none => .ok []
  | some _ => .error .parseError

/-- serde: each entry of the dependencies table in turn; every value must
be a string. -/
def depsEntries : List (String × RawValue) → Except Err (List (String × String))
  | [] => .ok []
  | kv :: t =>
    match kv.2 with
    | .str s => (depsEntries t).map (fun r => (kv.1, s) :: r)
    | _ => .error .parseError

/-- serde: the `Option<HashMap<String, String>>` dependencies table — absent
is `none`. -/
def depsField : Option (List (String × RawValue)) → Except Err (Option (List (String × String)))
  | none => .ok none
  | some l => (depsEntries l).map some

/-- `read_sop_toml` (src/toml_parser.rs lines 38-46) past the existence
check: `toml::from_str` deserializes field by field; any missing required
field or ill-typed field is a `ParseError`. -/
def read_sop_toml (d : RawDoc) : Except Err SopToml := do
  match d.project with
  | none => .error .parseError
  | some p =>
    let name ← reqStr p.name
    let version ← reqStr p.version
    let status ← reqStr p.status
    let description ← optStr p.description
    let license ← optStr p.license
    let author ← optStr p.author
    let repository ← optStr p.repository
    let homepage ← optStr p.homepage
    let entry ← reqStr p.entry
    let keywords ← optStrList p.keywords
    let categories ← optStrList p.categories
    let deps ← depsField d.dependencies
    return ⟨⟨name, version, status, description, license, author,
             repository, homepage, entry, keywords, categories⟩, deps⟩

/-! ### Association-list maps (model of `HashMap` and of the cache directory) -/

/-- First-match lookup, `HashMap::get`. -/
def lookupD (k : String) : List (String × String) → Option String
  | [] => none
  | kv :: t => if kv.1 = k then some kv.2 else lookupD k t

/-- `HashMap::insert`: replace the value when the key is present, else add. -/
def insertReplace (k v : String) : List (String × String) → List (String × String)
  | [] => [(k, v)]
  | kv :: t => if kv.1 = k then (k, v) :: t else kv :: insertReplace k v t

/-- `HashMap::remove`. -/
def removeKey (k : String) : List (String × String) → List (String × String)
  | [] => []
  | kv :: t => if kv.1 = k then removeKey k t else kv :: removeKey k t

/-- Metadata record written to `sop_modules/<pkg>/sop.toml` (the `[package]`
table with name, version, description). -/
structure Metadata where
  name : String
  version : String
  description : String
deriving DecidableEq, Repr

/-- One package directory in the module cache: the metadata file and the
`lib.so` placeholder, each present or (after a faulted install) absent. -/
structure PackageDir where
  metadata : Option Metadata
  lib : Option String
deriving DecidableEq, Repr

/-- The module cache `sop_modules/`: one entry per package directory. -/
abbrev Cache := List (String × PackageDir)

/-- Does `sop_modules/<k>/` exist? -/
def lookupC (k : String) : Cache → Option PackageDir
  | [] => none
  | kv :: t => if kv.1 = k then some kv.2 else lookupC k t

/-- `fs::remove_dir_all(sop_modules/<k>)`. -/
def eraseC (k : String) : Cache → Cache
  | [] => []
  | kv :: t => if kv.1 = k then eraseC k t else kv :: eraseC k t

/-- Create or overwrite the directory entry for `k`. -/
def insertC (k : String) (v : PackageDir) (c : Cache) : Cache :=
  (k, v) :: eraseC k c

/-- The placeholder `lib.so` content (src/commands/add.rs lines 96-104). -/
def libContent (package : String) : String :=
  "// This is a placeholder for the " ++ package ++ " library\n\n" ++
  "export fn hello() \x7b\n    println(\"Hello from " ++ package ++ "!\");\n\x7d\n"

/-- A fully installed package directory for `package` at `version`. -/
def fullDir (package version : String) : PackageDir :=
  ⟨some ⟨package, version, "A Soplang package"⟩, some (libContent package)⟩

/-- A directory just created by `ensure_dir_exists`, no files yet. -/
def emptyDir : PackageDir := ⟨none, none⟩

/-! ### Events: the outward-visible filesystem actions of a command run -/

/-- Trace events: a manifest write (`write_sop_toml`), a completed install,
an install that failed at its metadata write, a `remove_dir_all`, and the
already-installed short-circuit. -/
inductive Ev where
  | writeManifest (m : SopToml)
  | installed (package version : String)
  | installFailed (package : String)
  | removedDir (package : String)
  | skippedInstall (package : String)
deriving DecidableEq, Repr

/-- Is the event a manifest write? -/
def isWrite : Ev → Bool
  | .writeManifest _ => true
  | _ => false

/-- Number of manifest writes in a trace. -/
def countWrites (t : List Ev) : Nat :=
  (t.filter isWrite).length

/-- On-disk state: the parsed manifest file and the module cache. -/
structure St where
  manifest : SopToml
  cache : Cache
deriving DecidableEq, Repr

/-- A command run: optional error, final on-disk state, event trace. -/
structure Res where
  err : Option Err
  state : St
  trace : List Ev
deriving DecidableEq, Repr

/-- The manifest's dependency map (`[]` when the table is absent). -/
def depsList (s : St) : List (String × String) :=
  s.manifest.dependencies.getD []

/-- The keys of a dependency map. -/
def keysOf (l : List (String × String)) : List String :=
  l.map Prod.fst

/-! ### install_package (src/commands/setup.rs lines 52-98, add.rs 65-111) -/

/-- `install_package` of setup.rs/add.rs: short-circuit when the directory
exists (any contents); otherwise create the directory, write the metadata
file (the injected fault point), write `lib.so`. -/
def install_package (fault : String → Bool) (package version : String) (c : Cache) :
    Option Err × Cache × List Ev :=
  if (lookupC package c).isSome then
    (none, c, [.skippedInstall package])
  else if fault package then
    (some .ioError, insertC package emptyDir c, [.installFailed package])
  else
    (none, insertC package (fullDir package version) c, [.installed package version])

/-- `install_package` of update.rs lines 163-199: same writes but NO
already-installed short-circuit (`ensure_dir_exists` keeps an existing
directory, then both files are overwritten). -/
def install_package_upd (fault : String → Bool) (package version : String) (c : Cache) :
    Option Err × Cache × List Ev :=
  if fault package then
    (some .ioError,
     (if (lookupC package c).isSome then c else insertC package emptyDir c),
     [.installFailed package])
  else
    (none, insertC package (fullDir package version) c, [.installed package version])

/-! ### add (src/commands/add.rs) -/

/-- `add::execute` past the manifest-exists check: default the version to
`"latest"`, error when the package is already a dependency, else insert,
write the manifest, then install. -/
def addCmd (fault : String → Bool) (package : String) (version : Option String) (s : St) : Res :=
  let versionStr := version.getD "latest"
  let deps := depsList s
  if (lookupD package deps).isSome then
    ⟨some .alreadyPresent, s, []⟩
  else
    let deps' := insertReplace package versionStr deps
    let m' : SopToml := { s.manifest with dependencies := some deps' }
    match install_package fault package versionStr s.cache with
    | (e, c', evs) => ⟨e, ⟨m', c'⟩, Ev.writeManifest m' :: evs⟩

/-! ### remove (src/commands/remove.rs) -/

/-- `remove::execute` past the manifest-exists check: error when the
dependencies table is absent or lacks the package; else remove the entry,
write the manifest, delete the package directory when present. -/
def removeCmd (package : String) (s : St) : Res :=
  match s.manifest.dependencies with
  | none => ⟨some .notPresent, s, []⟩
  | some deps =>
    if (lookupD package deps).isNone then
      ⟨some .notPresent, s, []⟩
    else
      let m' : SopToml := { s.manifest with dependencies := some (removeKey package deps) }
      let evs := if (lookupC package s.cache).isSome then [Ev.removedDir package] else []
      ⟨none, ⟨m', eraseC package s.cache⟩, Ev.writeManifest m' :: evs⟩

/-! ### setup (src/commands/setup.rs) -/

/-- The install loop of `setup::execute`: install each dependency, stopping
at the first failure. -/
def setupGo (fault : String → Bool) : List (String × String) → Cache → Option Err × Cache × List Ev
  | [], c => (none, c, [])
  | (p, v) :: rest, c =>
    match install_package fault p v c with
    | (none, c', evs) =>
      match setupGo fault rest c' with
      | (e, c'', evs') => (e, c'', evs ++ evs')
    | (some e, c', evs) => (some e, c', evs)

/-- `setup::execute` past the manifest-exists check: install every
dependency; an absent or empty table is a reported no-op.  The manifest is
never written. -/
def setupCmd (fault : String → Bool) (s : St) : Res :=
  match s.manifest.dependencies with
  | none => ⟨none, s, []⟩
  | some deps =>
    if deps.isEmpty then ⟨none, s, []⟩
    else
      match setupGo fault deps s.cache with
      | (e, c', evs) => ⟨e, ⟨s.manifest, c'⟩, evs⟩

/-! ### update (src/commands/update.rs) -/

/-- Characters of a `u32` decimal numeral: optional `+`, then digits. -/
def parseU32Chars (cs : List Char) : Option Nat :=
  let ds := match cs with
    | '+' :: rest => rest
    | _ => cs
  if ds.isEmpty then none
  else if ds.all Char.isDigit then
    let n := ds.foldl (fun a c => a * 10 + (c.toNat - 48)) 0
    if n < 4294967296 then some n else none
  else none

/-- Rust `str::parse::<u32>()` as an optional `Nat`. -/
def parseU32 (s : String) : Option Nat :=
  parseU32Chars s.data

/-- Rust `str::split('.')` on the version string. -/
def splitChars (sep : Char) : List Char → List (List Char)
  | [] => [[]]
  | c :: rest =>
    let r := splitChars sep rest
    if c = sep then [] :: r
    else
      match r with
      | h :: t => (c :: h) :: t
      | [] => [[c]]

/-- `current_version.split('.')` collected. -/
def splitDot (s : String) : List String :=
  (splitChars '.' s.data).map (fun l => String.mk l)

/-- `format!("{}.{}.{}", a, b, c)` over parsed numerals. -/
def mkVersion (a b c : Nat) : String :=
  toString a ++ "." ++ toString b ++ "." ++ toString c

/-- `check_latest_version` (src/commands/update.rs lines 129-160) with the
`rand::random()` registry decision injected as `hasUpdate`.  The
`patch + 1` at line 152 is `u32` arithmetic: it wraps modulo 2^32
(release-build semantics; a debug build aborts on the overflow instead of
producing a value, so no build ever yields the unbounded sum). -/
def check_latest_version (package current : String) (hasUpdate : Bool) : String :=
  let version_parts := splitDot current
  if current = "latest" then "1.0.0"
  else if version_parts.length ≠ 3 then "1.0.0"
  else
    let major := (parseU32 (version_parts.getD 0 "")).getD 0
    let minor := (parseU32 (version_parts.getD 1 "")).getD 0
    let patch := (parseU32 (version_parts.getD 2 "")).getD 0
    if hasUpdate then mkVersion major minor ((patch + 1) % 4294967296) else current

/-- One package's update step (update.rs lines 42-71 / 80-109): check the
registry; when the version changed, update the map entry, delete the old
directory, reinstall.  Returns the new map, cache and events. -/
def updOne (oracle : String → String → Bool) (fault : String → Bool)
    (p v : String) (deps : List (String × String)) (c : Cache) :
    Option Err × List (String × String) × Cache × List Ev :=
  let latest := check_latest_version p v (oracle p v)
  if latest = v then (none, deps, c, [])
  else
    let deps' := insertReplace p latest deps
    let removed := (lookupC p c).isSome
    let c1 := if removed then eraseC p c else c
    let ev0 := if removed then [Ev.removedDir p] else []
    match install_package_upd fault p latest c1 with
    | (e, c2, evs) => (e, deps', c2, ev0 ++ evs)

/-- The update-all loop over a clone of the dependency map, stopping at the
first failed install. -/
def updAllGo (oracle : String → String → Bool) (fault : String → Bool) :
    List (String × String) → List (String × String) → Cache →
    Option Err × List (String × String) × Cache × List Ev
  | [], deps, c => (none, deps, c, [])
  | (p, v) :: rest, deps, c =>
    match updOne oracle fault p v deps c with
    | (none, deps', c', evs) =>
      match updAllGo oracle fault rest deps' c' with
      | (e, deps'', c'', evs') => (e, deps'', c'', evs ++ evs')
    | (some e, deps', c', evs) => (some e, deps', c', evs)

/-- `update::execute` past the manifest-exists check: no-op on an absent or
empty table; single-package mode errors when the package is not a
dependency; the manifest is written once at the end (line 123), reached
only when no install failed — on failure the `?` propagation skips it, so
the on-disk manifest keeps its old contents. -/
def updateCmd (oracle : String → String → Bool) (fault : String → Bool)
    (package : Option String) (s : St) : Res :=
  match s.manifest.dependencies with
  | none => ⟨none, s, []⟩
  | some deps =>
    if deps.isEmpty then ⟨none, s, []⟩
    else
      match package with
      | some p =>
        match lookupD p deps with
        | none => ⟨some .notPresent, s, []⟩
        | some v =>
          match updOne oracle fault p v deps s.cache with
          | (none, deps', c', evs) =>
            let m' : SopToml := { s.manifest with dependencies := some deps' }
            ⟨none, ⟨m', c'⟩, evs ++ [Ev.writeManifest m']⟩
          | (some e, _, c', evs) => ⟨some e, ⟨s.manifest, c'⟩, evs⟩
      | none =>
        match updAllGo oracle fault deps deps s.cache with
        | (none, deps', c', evs) =>
          let m' : SopToml := { s.manifest with dependencies := some deps' }
          ⟨none, ⟨m', c'⟩, evs ++ [Ev.writeManifest m']⟩
        | (some e, _, c', evs) => ⟨some e, ⟨s.manifest, c'⟩, evs⟩

/-- The manifest/cache consistency invariant (§3): every dependency key has
a directory in the module cache. -/
def cacheInvariant (s : St) : Prop :=
  ∀ p, p ∈ keysOf (depsList s) → (lookupC p s.cache).isSome = true

instance (s : St) : Decidable (cacheInvariant s) := by
  unfold cacheInvariant; infer_instance

/-! ### Map lemmas -/

theorem lookupC_insertC_self (k : String) (v : PackageDir) (c : Cache) :
    lookupC k (insertC k v c) = some v := by
  simp [insertC, lookupC]

theorem lookupC_eraseC_ne (q k : String) (c : Cache) (h : k ≠ q) :
    lookupC q (eraseC k c) = lookupC q c := by
  induction c with
  | nil => rfl
  | cons kv t ih =>
    by_cases hk : kv.1 = k
    · subst hk
      simp [eraseC, lookupC, ih, h]
    · simp [eraseC, lookupC, hk, ih]

theorem lookupC_insertC_ne (q k : String) (v : PackageDir) (c : Cache) (h : k ≠ q) :
    lookupC q (insertC k v c) = lookupC q c := by
  simp [insertC, lookupC, h, lookupC_eraseC_ne q k c h]

theorem mem_keysOf_insertReplace (q k v : String) (l : List (String × String))
    (h : q ∈ keysOf (insertReplace k v l)) : q = k ∨ q ∈ keysOf l := by
  induction l with
  | nil => simpa [insertReplace, keysOf] using h
  | cons kv t ih =>
    by_cases hk : kv.1 = k
    · simp [insertReplace, hk, keysOf] at h
      rcases h with h | h
      · exact Or.inl h
      · exact Or.inr (by simp [keysOf]; exact Or.inr h)
    · simp [insertReplace, hk, keysOf] at h
      rcases h with h | h
      · exact Or.inr (by simp [keysOf, h])
      · rcases ih (by simpa [keysOf] using h) with h' | h'
        · exact Or.inl h'
        · exact Or.inr (by simp [keysOf] at h' ⊢; exact Or.inr h')

/-! ### Installer lemmas -/

theorem install_package_ok (fault : String → Bool) (p v : String) (c c' : Cache) (evs : List Ev)
    (h : install_package fault p v c = (none, c', evs)) :
    (lookupC p c').isSome = true ∧
      ∀ q, (lookupC q c).isSome = true → (lookupC q c').isSome = true := by
  unfold install_package at h
  by_cases hp : (lookupC p c).isSome
  · simp [hp] at h
    obtain ⟨rfl, -⟩ := h
    exact ⟨hp, fun q hq => hq⟩
  · by_cases hf : fault p
    · simp [hp, hf] at h
    · simp [hp, hf] at h
      obtain ⟨rfl, -⟩ := h
      refine ⟨by simp [lookupC_insertC_self], fun q hq => ?_⟩
      by_cases hqp : q = p
      · subst hqp; simp [lookupC_insertC_self]
      · rw [lookupC_insertC_ne q p _ c (fun e => hqp e.symm)]; exact hq

theorem install_package_upd_ok (fault : String → Bool) (p v : String) (c c' : Cache)
    (evs : List Ev) (h : install_package_upd fault p v c = (none, c', evs)) :
    c' = insertC p (fullDir p v) c := by
  unfold install_package_upd at h
  by_cases hf : fault p
  · simp [hf] at h
  · simp [hf] at h
    exact h.1.symm

/-! ### Concrete states used by witnesses and counterexamples -/

/-- A project table as `sop init` would create it. -/
def demoProject : ProjectConfig :=
  ⟨"demo", "1.0.0", "stable", "", "", "", "", "", "src/main.so", [], []⟩

/-- An empty project: no dependencies, empty module cache. -/
def emptySt : St := ⟨⟨demoProject, some []⟩, []⟩

/-- The no-failure filesystem. -/
def noFault : String → Bool := fun _ => false

/-- A project depending on `a = "1.0.0"`, already installed. -/
def demoSt : St :=
  ⟨⟨demoProject, some [("a", "1.0.0")]⟩, [("a", fullDir "a" "1.0.0")]⟩

/-! ### C3 -/

/-- C3, as stated, is false: `check_latest_version` on the malformed
specifier `"a.b.c"` (three dot-separated parts, none numeric) returns
`"0.0.1"` or `"a.b.c"` depending on the registry decision — never
`"1.0.0"`. -/
theorem C3_counterexample :
    check_latest_version "foo" "a.b.c" true = "0.0.1" ∧
    check_latest_version "foo" "a.b.c" false = "a.b.c" ∧
    ("0.0.1" : String) ≠ "1.0.0" ∧ ("a.b.c" : String) ≠ "1.0.0" := by
  decide

/-- C3 amended: `check_latest_version` returns `"1.0.0"` for the specifier
`"latest"`, and for any specifier that does not consist of exactly three
dot-separated parts; a three-part specifier with non-numeric components is
instead handled by the parse-with-zero-fallback increment path. -/
theorem C3_check_update_fallback (package current : String) (hasUpdate : Bool)
    (h : current = "latest" ∨ (splitDot current).length ≠ 3) :
    check_latest_version package current hasUpdate = "1.0.0" := by
  unfold check_latest_version
  rcases h with h | h
  · subst h; simp
  · by_cases hl : current = "latest"
    · subst hl; simp
    · simp [hl, h]

/-- Witness: the two-part specifier `"1.2"` resolves to `"1.0.0"`. -/
theorem C3_check_update_fallback_witness :
    check_latest_version "foo" "1.2" true = "1.0.0" :=
  C3_check_update_fallback "foo" "1.2" true (Or.inr (by decide))

/-! ### C8 -/

/-- C8, as stated, is false at a numeric version exceeding `u32`:
`"4294967296.0.0"` has three numeric dot-separated components, yet when the
registry reports an update the result is `"0.0.1"` — neither the current
string nor `major.minor.(patch+1) = "4294967296.0.1"` (the overflowing
component parses via `unwrap_or(0)`). -/
theorem C8_counterexample :
    check_latest_version "foo" "4294967296.0.0" true = "0.0.1" ∧
    ("0.0.1" : String) ≠ "4294967296.0.0" ∧
    ("0.0.1" : String) ≠ "4294967296.0.1" := by
  decide

/-- C8 amended: for a version whose three dot-separated components each
parse as `u32` numerals and whose patch component is below `u32::MAX` (so
the `u32` increment does not overflow), `check_latest_version` returns
`major.minor.(patch+1)` (rendered from the parsed values) when the registry
reports an update, and the current string unchanged otherwise — no other
result is possible. -/
theorem C8_concrete_version_update (package current p1 p2 p3 : String) (v1 v2 v3 : Nat)
    (hs : splitDot current = [p1, p2, p3])
    (h1 : parseU32 p1 = some v1) (h2 : parseU32 p2 = some v2) (h3 : parseU32 p3 = some v3)
    (h4 : v3 < 4294967295) :
    check_latest_version package current true = mkVersion v1 v2 (v3 + 1) ∧
    check_latest_version package current false = current := by
  have hne : current ≠ "latest" := by
    intro hcur
    subst hcur
    have hlen := congrArg List.length hs
    rw [show splitDot "latest" = ["latest"] by decide] at hlen
    simp at hlen
  have hm : (v3 + 1) % 4294967296 = v3 + 1 := Nat.mod_eq_of_lt (by omega)
  constructor <;> simp [check_latest_version, hne, hs, h1, h2, h3, hm]

/-- Witness: `"1.2.3"` goes to `"1.2.4"` or stays `"1.2.3"`. -/
theorem C8_concrete_version_update_witness :
    check_latest_version "foo" "1.2.3" true = mkVersion 1 2 4 ∧
    check_latest_version "foo" "1.2.3" false = "1.2.3" :=
  C8_concrete_version_update "foo" "1.2.3" "1" "2" "3" 1 2 3
    (by decide) (by decide) (by decide) (by decide) (by decide)

/-! ### C5 -/

/-- C5: `install_package` (the setup/add installer) is idempotent: when the
package directory already exists — whatever its recorded version — it
returns success leaving the cache untouched, and a second run after a
successful run changes nothing and cannot fail. -/
theorem C5_install_idempotent (fault : String → Bool) (package version : String) (c : Cache) :
    ((lookupC package c).isSome = true →
      install_package fault package version c = (none, c, [Ev.skippedInstall package])) ∧
    (∀ c' evs, install_package fault package version c = (none, c', evs) →
      install_package fault package version c' = (none, c', [Ev.skippedInstall package])) := by
  constructor
  · intro h
    simp [install_package, h]
  · intro c' evs h
    have hp := install_package_ok fault package version c c' evs h
    simp [install_package, hp.1]

/-- Witness: installing `"b"` twice into the empty cache: the second run
short-circuits on the state the first produced. -/
theorem C5_install_idempotent_witness :
    install_package noFault "b" "1.0.0" (insertC "b" (fullDir "b" "1.0.0") []) =
      (none, insertC "b" (fullDir "b" "1.0.0") [], [Ev.skippedInstall "b"]) :=
  (C5_install_idempotent noFault "b" "1.0.0" []).2
    (insertC "b" (fullDir "b" "1.0.0") []) [Ev.installed "b" "1.0.0"] (by decide)

/-! ### C7 -/

/-- C7: `remove` of a package that is not a dependency (including when the
dependencies table is absent) fails with `NotPresent` and performs no
filesystem action at all: the returned state is the input state and the
event trace is empty, so the manifest file is byte-for-byte unchanged and
the module cache untouched. -/
theorem C7_remove_missing_frame (package : String) (s : St)
    (h : (lookupD package (depsList s)).isNone = true) :
    removeCmd package s = ⟨some Err.notPresent, s, []⟩ := by
  unfold removeCmd
  cases hd : s.manifest.dependencies with
  | none => rfl
  | some deps =>
    have hl : (lookupD package deps).isNone = true := by
      simpa [depsList, hd] using h
    simp [hl]

/-- Witness: removing `"nonexistent"` from the demo project. -/
theorem C7_remove_missing_frame_witness :
    removeCmd "nonexistent" demoSt = ⟨some Err.notPresent, demoSt, []⟩ :=
  C7_remove_missing_frame "nonexistent" demoSt (by decide)

/-! ### C10 -/

/-- C10: `add` of a package that is already a dependency fails with
`AlreadyPresent` before any write: the returned state is the input state
and the event trace is empty — no manifest write, no cache mutation. -/
theorem C10_add_present_frame (fault : String → Bool) (package : String)
    (version : Option String) (s : St)
    (h : (lookupD package (depsList s)).isSome = true) :
    addCmd fault package version s = ⟨some Err.alreadyPresent, s, []⟩ := by
  unfold addCmd
  simp [h]

/-- Witness: re-adding `"a"` to the demo project. -/
theorem C10_add_present_frame_witness :
    addCmd noFault "a" none demoSt = ⟨some Err.alreadyPresent, demoSt, []⟩ :=
  C10_add_present_frame noFault "a" none demoSt (by decide)

/-! ### C6 -/

/-- C6: `add` fails with `AlreadyPresent` exactly when the package is a key
of the dependency map, and `remove` fails with `NotPresent` exactly when it
is not (an absent dependencies table counting as an empty map). -/
theorem C6_membership_errors (fault : String → Bool) (package : String)
    (version : Option String) (s : St) :
    ((addCmd fault package version s).err = some Err.alreadyPresent ↔
      (lookupD package (depsList s)).isSome = true) ∧
    ((removeCmd package s).err = some Err.notPresent ↔
      (lookupD package (depsList s)).isNone = true) := by
  constructor
  · constructor
    · intro h
      by_contra hp
      unfold addCmd at h
      simp [hp] at h
      rcases hi : install_package fault package (version.getD "latest") s.cache with ⟨e, c', evs⟩
      rw [hi] at h
      unfold install_package at hi
      by_cases hl : (lookupC package s.cache).isSome
      · simp [hl] at hi
        obtain ⟨rfl, -⟩ := hi
        simp at h
      · by_cases hf : fault package
        · simp [hl, hf] at hi
          obtain ⟨rfl, -⟩ := hi
          simp at h
        · simp [hl, hf] at hi
          obtain ⟨rfl, -⟩ := hi
          simp at h
    · intro h
      unfold addCmd
      simp [h]
  · constructor
    · intro h
      unfold removeCmd at h
      cases hd : s.manifest.dependencies with
      | none => simp [depsList, hd, lookupD]
      | some deps =>
        rw [hd] at h
        by_cases hl : (lookupD package deps).isNone
        · simpa [depsList, hd] using hl
        · simp [hl] at h
    · intro h
      unfold removeCmd
      cases hd : s.manifest.dependencies with
      | none => rfl
      | some deps =>
        have hl : (lookupD package deps).isNone = true := by
          simpa [depsList, hd] using h
        simp [hl]

/-! ### C2 -/

/-- Did the load succeed? -/
def exceptOk : Except Err SopToml → Bool
  | .ok _ => true
  | .error _ => false

/-- Did reading the dependency entries succeed? -/
def entriesOk : Except Err (List (String × String)) → Bool
  | .ok _ => true
  | .error _ => false

theorem exceptBind_ok {α β : Type} (a : α) (f : α → Except Err β) :
    (Except.ok a >>= f) = f a := rfl

theorem exceptBind_error {α β : Type} (e : Err) (f : α → Except Err β) :
    ((Except.error e : Except Err α) >>= f) = Except.error e := rfl

/-- Spec-side predicate for the amended C2: a required `String` field is
present and a string. -/
def isStrB : Option RawValue → Bool
  | some (.str _) => true
  | _ => false

/-- Spec-side: a defaulted `String` field is absent or a string. -/
def optStrOkB : Option RawValue → Bool
  | some (.str _) => true
  | none => true
  | _ => false

/-- Spec-side: a defaulted `Vec<String>` field is absent or a string array. -/
def optListOkB : Option RawValue → Bool
  | some (.strList _) => true
  | none => true
  | _ => false

/-- Spec-side: every dependency value is a string. -/
def depsValuesOk : List (String × RawValue) → Bool
  | [] => true
  | kv :: t =>
    (match kv.2 with
      | .str _ => true
      | _ => false) && depsValuesOk t

/-- Spec-side: the dependencies table is absent or all its values are
strings. -/
def depsOkB : Option (List (String × RawValue)) → Bool
  | none => true
  | some l => depsValuesOk l

/-- Spec-side predicate, per the amended C2: a manifest loads exactly when
the `[project]` table is present, its `name`, `version`, `status` and
`entry` fields are present strings, every other project field is absent or
correctly typed, and every dependency value is a string. -/
def loadOk (d : RawDoc) : Bool :=
  match d.project with
  | none => false
  | some p =>
    isStrB p.name && isStrB p.version && isStrB p.status &&
    optStrOkB p.description && optStrOkB p.license && optStrOkB p.author &&
    optStrOkB p.repository && optStrOkB p.homepage && isStrB p.entry &&
    optListOkB p.keywords && optListOkB p.categories && depsOkB d.dependencies

theorem reqStr_cases (x : Option RawValue) :
    (isStrB x = false ∧ reqStr x = .error .parseError) ∨
    (∃ s, reqStr x = .ok s ∧ isStrB x = true) := by
  rcases x with - | v
  · exact Or.inl ⟨rfl, rfl⟩
  · rcases v with s | l | -
    · exact Or.inr ⟨s, rfl, rfl⟩
    · exact Or.inl ⟨rfl, rfl⟩
    · exact Or.inl ⟨rfl, rfl⟩

theorem optStr_cases (x : Option RawValue) :
    (optStrOkB x = false ∧ optStr x = .error .parseError) ∨
    (∃ s, optStr x = .ok s ∧ optStrOkB x = true) := by
  rcases x with - | v
  · exact Or.inr ⟨"", rfl, rfl⟩
  · rcases v with s | l | -
    · exact Or.inr ⟨s, rfl, rfl⟩
    · exact Or.inl ⟨rfl, rfl⟩
    · exact Or.inl ⟨rfl, rfl⟩

theorem optStrList_cases (x : Option RawValue) :
    (optListOkB x = false ∧ optStrList x = .error .parseError) ∨
    (∃ l, optStrList x = .ok l ∧ optListOkB x = true) := by
  rcases x with - | v
  · exact Or.inr ⟨[], rfl, rfl⟩
  · rcases v with s | l | -
    · exact Or.inl ⟨rfl, rfl⟩
    · exact Or.inr ⟨l, rfl, rfl⟩
    · exact Or.inl ⟨rfl, rfl⟩

theorem depsField_cases (x : Option (List (String × RawValue))) :
    (depsOkB x = false ∧ depsField x = .error .parseError) ∨
    (∃ d, depsField x = .ok d ∧ depsOkB x = true) := by
  rcases x with - | l
  · exact Or.inr ⟨none, rfl, rfl⟩
  · have he : (∃ r, depsEntries l = .ok r) ∨ depsEntries l = .error .parseError := by
      induction l with
      | nil => exact Or.inl ⟨[], rfl⟩
      | cons kv t ih =>
        rcases kv with ⟨k, v⟩
        rcases v with s | vl | -
        · rcases ih with ⟨r, hr⟩ | hr
          · exact Or.inl ⟨(k, s) :: r, by simp [depsEntries, hr, Except.map]⟩
          · exact Or.inr (by simp [depsEntries, hr, Except.map])
        · exact Or.inr rfl
        · exact Or.inr rfl
    have hball : depsValuesOk l = entriesOk (depsEntries l) := by
      induction l with
      | nil => rfl
      | cons kv t ih =>
        rcases kv with ⟨k, v⟩
        rcases v with s | vl | -
        · rcases he' : depsEntries t with r | r <;>
            simp_all [depsValuesOk, depsEntries, Except.map, entriesOk]
        · simp [depsValuesOk, depsEntries, entriesOk]
        · simp [depsValuesOk, depsEntries, entriesOk]
    rcases he with ⟨r, hr⟩ | hr
    · exact Or.inr ⟨some r, by simp [depsField, hr, Except.map],
        by simp [depsOkB, hball, hr, entriesOk]⟩
    · exact Or.inl ⟨by simp [depsOkB, hball, hr, entriesOk],
        by simp [depsField, hr, Except.map]⟩

/-- C2, as stated, is false: a manifest whose `[project]` table provides
`name`, `version` and `entry` as strings — but omits `status` — fails to
load: `status` has no serde default, so it is a required field too. -/
theorem C2_counterexample :
    read_sop_toml ⟨some ⟨some (.str "demo"), some (.str "1.0.0"), none, none, none,
      none, none, none, some (.str "src/main.so"), none, none⟩, none⟩ =
      .error .parseError := rfl

/-- C2 amended: a manifest loads exactly when the `[project]` table is
present with `name`, `version`, `status` and `entry` present as strings and
every optional field absent or correctly typed (defaulting when absent),
and every dependency value a string; every load failure is a `ParseError`. -/
theorem C2_load_characterisation (d : RawDoc) :
    (exceptOk (read_sop_toml d) = loadOk d) ∧
    (∀ e, read_sop_toml d = .error e → e = .parseError) := by
  cases hd : d.project with
  | none =>
    constructor
    · simp [read_sop_toml, loadOk, hd, exceptOk]
    · intro e he
      simp [read_sop_toml, hd] at he
      exact he.symm
  | some p =>
    have expand : read_sop_toml d =
        (reqStr p.name >>= fun name =>
         reqStr p.version >>= fun version =>
         reqStr p.status >>= fun status =>
         optStr p.description >>= fun description =>
         optStr p.license >>= fun license =>
         optStr p.author >>= fun author =>
         optStr p.repository >>= fun repository =>
         optStr p.homepage >>= fun homepage =>
         reqStr p.entry >>= fun entry =>
         optStrList p.keywords >>= fun keywords =>
         optStrList p.categories >>= fun categories =>
         depsField d.dependencies >>= fun deps =>
         Except.ok ⟨⟨name, version, status, description, license, author,
           repository, homepage, entry, keywords, categories⟩, deps⟩) := by
      simp [read_sop_toml, hd]
      rfl
    have lo : loadOk d =
        (isStrB p.name && isStrB p.version && isStrB p.status &&
         optStrOkB p.description && optStrOkB p.license && optStrOkB p.author &&
         optStrOkB p.repository && optStrOkB p.homepage && isStrB p.entry &&
         optListOkB p.keywords && optListOkB p.categories && depsOkB d.dependencies) := by
      simp [loadOk, hd]
    rcases reqStr_cases p.name with ⟨b1, h1⟩ | ⟨s1, h1, b1⟩
    · constructor
      · simp [expand, lo, h1, b1, exceptBind_error, exceptOk]
      · intro e he
        simp [expand, h1, exceptBind_error] at he
        exact he.symm
    rcases reqStr_cases p.version with ⟨b2, h2⟩ | ⟨s2, h2, b2⟩
    · constructor
      · simp [expand, lo, h1, h2, b2, exceptBind_ok, exceptBind_error, exceptOk]
      · intro e he
        simp [expand, h1, h2, exceptBind_ok, exceptBind_error] at he
        exact he.symm
    rcases reqStr_cases p.status with ⟨b3, h3⟩ | ⟨s3, h3, b3⟩
    · constructor
      · simp [expand, lo, h1, h2, h3, b3, exceptBind_ok, exceptBind_error, exceptOk]
      · intro e he
        simp [expand, h1, h2, h3, exceptBind_ok, exceptBind_error] at he
        exact he.symm
    rcases optStr_cases p.description with ⟨b4, h4⟩ | ⟨s4, h4, b4⟩
    · constructor
      · simp [expand, lo, h1, h2, h3, h4, b4, exceptBind_ok, exceptBind_error, exceptOk]
      · intro e he
        simp [expand, h1, h2, h3, h4, exceptBind_ok, exceptBind_error] at he
        exact he.symm
    rcases optStr_cases p.license with ⟨b5, h5⟩ | ⟨s5, h5, b5⟩
    · constructor
      · simp [expand, lo, h1, h2, h3, h4, h5, b5, exceptBind_ok, exceptBind_error,
          exceptOk]
      · intro e he
        simp [expand, h1, h2, h3, h4, h5, exceptBind_ok, exceptBind_error] at he
        exact he.symm
    rcases optStr_cases p.author with ⟨b6, h6⟩ | ⟨s6, h6, b6⟩
    · constructor
      · simp [expand, lo, h1, h2, h3, h4, h5, h6, b6, exceptBind_ok, exceptBind_error,
          exceptOk]
      · intro e he
        simp [expand, h1, h2, h3, h4, h5, h6, exceptBind_ok, exceptBind_error] at he
        exact he.symm
    rcases optStr_cases p.repository with ⟨b7, h7⟩ | ⟨s7, h7, b7⟩
    · constructor
      · simp [expand, lo, h1, h2, h3, h4, h5, h6, h7, b7, exceptBind_ok,
          exceptBind_error, exceptOk]
      · intro e he
        simp [expand, h1, h2, h3, h4, h5, h6, h7, exceptBind_ok, exceptBind_error] at he
        exact he.symm
    rcases optStr_cases p.homepage with ⟨b8, h8⟩ | ⟨s8, h8, b8⟩
    · constructor
      · simp [expand, lo, h1, h2, h3, h4, h5, h6, h7, h8, b8, exceptBind_ok,
          exceptBind_error, exceptOk]
      · intro e he
        simp [expand, h1, h2, h3, h4, h5, h6, h7, h8, exceptBind_ok,
          exceptBind_error] at he
        exact he.symm
    rcases reqStr_cases p.entry with ⟨b9, h9⟩ | ⟨s9, h9, b9⟩
    · constructor
      · simp [expand, lo, h1, h2, h3, h4, h5, h6, h7, h8, h9, b9, exceptBind_ok,
          exceptBind_error, exceptOk]
      · intro e he
        simp [expand, h1, h2, h3, h4, h5, h6, h7, h8, h9, exceptBind_ok,
          exceptBind_error] at he
        exact he.symm
    rcases optStrList_cases p.keywords with ⟨b10, h10⟩ | ⟨l10, h10, b10⟩
    · constructor
      · simp [expand, lo, h1, h2, h3, h4, h5, h6, h7, h8, h9, h10, b10, exceptBind_ok,
          exceptBind_error, exceptOk]
      · intro e he
        simp [expand, h1, h2, h3, h4, h5, h6, h7, h8, h9, h10, exceptBind_ok,
          exceptBind_error] at he
        exact he.symm
    rcases optStrList_cases p.categories with ⟨b11, h11⟩ | ⟨l11, h11, b11⟩
    · constructor
      · simp [expand, lo, h1, h2, h3, h4, h5, h6, h7, h8, h9, h10, h11, b11,
          exceptBind_ok, exceptBind_error, exceptOk]
      · intro e he
        simp [expand, h1, h2, h3, h4, h5, h6, h7, h8, h9, h10, h11, exceptBind_ok,
          exceptBind_error] at he
        exact he.symm
    rcases depsField_cases d.dependencies with ⟨b12, h12⟩ | ⟨d12, h12, b12⟩
    · constructor
      · simp [expand, lo, h1, h2, h3, h4, h5, h6, h7, h8, h9, h10, h11, h12, b12,
          exceptBind_ok, exceptBind_error, exceptOk]
      · intro e he
        simp [expand, h1, h2, h3, h4, h5, h6, h7, h8, h9, h10, h11, h12, exceptBind_ok,
          exceptBind_error] at he
        exact he.symm
    constructor
    · simp [expand, lo, h1, h2, h3, h4, h5, h6, h7, h8, h9, h10, h11, h12, b1, b2, b3,
        b4, b5, b6, b7, b8, b9, b10, b11, b12, exceptBind_ok, exceptOk]
    · intro e he
      simp [expand, h1, h2, h3, h4, h5, h6, h7, h8, h9, h10, h11, h12,
        exceptBind_ok] at he


/-! ### C1 -/

/-- C1, as stated, is false: on the empty project, `add "foo"` with no
version does give the manifest `foo = "latest"`, and after `setup` the
directory `sop_modules/foo/` exists — but its metadata records version
`"latest"`, not `"1.0.0"`: neither `add` nor `setup` resolves the
specifier before installing. -/
theorem C1_counterexample :
    (addCmd noFault "foo" none emptySt).err = none ∧
    (addCmd noFault "foo" none emptySt).state.manifest.dependencies =
      some [("foo", "latest")] ∧
    (setupCmd noFault (addCmd noFault "foo" none emptySt).state).err = none ∧
    (((lookupC "foo"
        (setupCmd noFault (addCmd noFault "foo" none emptySt).state).state.cache).bind
        PackageDir.metadata).map Metadata.version) = some "latest" ∧
    some "latest" ≠ some "1.0.0" := by
  decide

/-- C1 amended: on the empty project, `add "foo"` with no version gives the
manifest `foo = "latest"` and installs immediately; the subsequent `setup`
succeeds (short-circuiting on the existing directory), and
`sop_modules/foo/` exists with metadata recording name `"foo"`, version
`"latest"` — the specifier installed verbatim, no resolution to `"1.0.0"`
taking place. -/
theorem C1_add_setup_scenario :
    (addCmd noFault "foo" none emptySt).err = none ∧
    (addCmd noFault "foo" none emptySt).state.manifest.dependencies =
      some [("foo", "latest")] ∧
    (setupCmd noFault (addCmd noFault "foo" none emptySt).state).err = none ∧
    ((lookupC "foo"
        (setupCmd noFault (addCmd noFault "foo" none emptySt).state).state.cache).bind
        PackageDir.metadata) = some ⟨"foo", "latest", "A Soplang package"⟩ := by
  decide

/-! ### Synchronizer lemmas for C4 -/

theorem setupGo_ok (fault : String → Bool) :
    ∀ (l : List (String × String)) (c c' : Cache) (evs : List Ev),
      setupGo fault l c = (none, c', evs) →
      (∀ q, (lookupC q c).isSome = true → (lookupC q c').isSome = true) ∧
      (∀ pv ∈ l, (lookupC pv.1 c').isSome = true) := by
  intro l
  induction l with
  | nil =>
    intro c c' evs h
    simp [setupGo] at h
    obtain ⟨rfl, -⟩ := h
    exact ⟨fun q hq => hq, by simp⟩
  | cons pv t ih =>
    intro c c' evs h
    rcases pv with ⟨p, v⟩
    unfold setupGo at h
    rcases hi : install_package fault p v c with ⟨e1, c1, evs1⟩
    rw [hi] at h
    cases e1 with
    | some e => simp at h
    | none =>
      dsimp only at h
      rcases hg : setupGo fault t c1 with ⟨e2, c2, evs2⟩
      rw [hg] at h
      dsimp only at h
      simp only [Prod.mk.injEq] at h
      obtain ⟨he2, hc2, -⟩ := h
      subst he2
      subst hc2
      have hmono1 := install_package_ok fault p v c c1 evs1 hi
      have hrest := ih c1 c2 evs2 hg
      refine ⟨fun q hq => hrest.1 q (hmono1.2 q hq), ?_⟩
      intro pv hpv
      rcases List.mem_cons.mp hpv with heq | hpv'
      · rw [heq]
        exact hrest.1 p hmono1.1
      · exact hrest.2 pv hpv'

theorem updOne_ok (oracle : String → String → Bool) (fault : String → Bool)
    (p v : String) (deps deps' : List (String × String)) (c c' : Cache) (evs : List Ev)
    (h : updOne oracle fault p v deps c = (none, deps', c', evs))
    (hinv : ∀ q, q ∈ keysOf deps → (lookupC q c).isSome = true) :
    ∀ q, q ∈ keysOf deps' → (lookupC q c').isSome = true := by
  unfold updOne at h
  by_cases he : check_latest_version p v (oracle p v) = v
  · simp [he] at h
    obtain ⟨rfl, rfl, -⟩ := h
    exact hinv
  · rw [if_neg he] at h
    dsimp only at h
    rcases hi : install_package_upd fault p (check_latest_version p v (oracle p v))
        (if (lookupC p c).isSome = true then eraseC p c else c) with ⟨e1, c1, evs1⟩
    rw [hi] at h
    dsimp only at h
    simp only [Prod.mk.injEq] at h
    obtain ⟨he1, hdeps, hc, -⟩ := h
    subst he1
    subst hdeps
    subst hc
    have hc1 := install_package_upd_ok fault p _ _ c1 evs1 hi
    intro q hq
    rcases mem_keysOf_insertReplace q p _ deps hq with rfl | hq'
    · rw [hc1, lookupC_insertC_self]
      rfl
    · by_cases hqp : q = p
      · subst hqp
        rw [hc1, lookupC_insertC_self]
        rfl
      · rw [hc1, lookupC_insertC_ne q p _ _ (fun e => hqp e.symm)]
        by_cases hr : (lookupC p c).isSome = true
        · rw [if_pos hr, lookupC_eraseC_ne q p c (fun e => hqp e.symm)]
          exact hinv q hq'
        · rw [if_neg hr]
          exact hinv q hq'

theorem updAllGo_ok (oracle : String → String → Bool) (fault : String → Bool) :
    ∀ (todo deps : List (String × String)) (c : Cache) (deps' : List (String × String))
      (c' : Cache) (evs : List Ev),
      updAllGo oracle fault todo deps c = (none, deps', c', evs) →
      (∀ q, q ∈ keysOf deps → (lookupC q c).isSome = true) →
      ∀ q, q ∈ keysOf deps' → (lookupC q c').isSome = true := by
  intro todo
  induction todo with
  | nil =>
    intro deps c deps' c' evs h hinv
    simp [updAllGo] at h
    obtain ⟨rfl, rfl, -⟩ := h
    exact hinv
  | cons pv t ih =>
    intro deps c deps' c' evs h hinv
    rcases pv with ⟨p, v⟩
    unfold updAllGo at h
    rcases h1 : updOne oracle fault p v deps c with ⟨e1, d1, c1, evs1⟩
    rw [h1] at h
    cases e1 with
    | some e => simp at h
    | none =>
      dsimp only at h
      rcases h2 : updAllGo oracle fault t d1 c1 with ⟨e2, d2, c2, evs2⟩
      rw [h2] at h
      dsimp only at h
      simp only [Prod.mk.injEq] at h
      obtain ⟨he2, hd2, hc2, -⟩ := h
      subst he2
      subst hd2
      subst hc2
      exact ih d1 c1 d2 c2 evs2 h2 (updOne_ok oracle fault p v deps d1 c c1 evs1 h1 hinv)

/-! ### C4 -/

/-- C4: if every dependency key has a directory in the module cache and a
`setup`, `add` or `update` command completes without error, every key of
the resulting dependency map has a directory in the resulting cache. -/
theorem C4_invariant_preserved (oracle : String → String → Bool) (fault : String → Bool)
    (package : String) (version : Option String) (target : Option String) (s : St)
    (hinv : cacheInvariant s) :
    ((setupCmd fault s).err = none → cacheInvariant (setupCmd fault s).state) ∧
    ((addCmd fault package version s).err = none →
      cacheInvariant (addCmd fault package version s).state) ∧
    ((updateCmd oracle fault target s).err = none →
      cacheInvariant (updateCmd oracle fault target s).state) := by
  refine ⟨?_, ?_, ?_⟩
  · -- setup
    cases hd : s.manifest.dependencies with
    | none =>
      intro _
      simpa [setupCmd, hd] using hinv
    | some deps =>
      by_cases hemp : deps.isEmpty
      · intro _
        simpa [setupCmd, hd, hemp] using hinv
      · rcases hg : setupGo fault deps s.cache with ⟨e, c', evs⟩
        simp [setupCmd, hd, hemp, hg]
        intro he
        subst he
        have hok := setupGo_ok fault deps s.cache c' evs hg
        intro q hq
        simp only [depsList, hd, Option.getD] at hq ⊢
        rcases List.mem_map.mp hq with ⟨pv, hpv, hfst⟩
        rw [← hfst]
        exact hok.2 pv hpv
  · -- add
    by_cases hl : (lookupD package (depsList s)).isSome = true
    · intro he
      simp [addCmd, hl] at he
    · rcases hi : install_package fault package (version.getD "latest") s.cache
        with ⟨e, c', evs⟩
      simp [addCmd, hl, hi]
      intro he
      subst he
      have hins := install_package_ok fault package (version.getD "latest") s.cache c' evs hi
      intro q hq
      simp only [depsList, Option.getD] at hq
      rcases List.mem_map.mp hq with ⟨pv, hpv, hfst⟩
      have hq' : q ∈ keysOf (insertReplace package (version.getD "latest") (depsList s)) := by
        simp only [keysOf]
        exact List.mem_map.mpr ⟨pv, hpv, hfst⟩
      rcases mem_keysOf_insertReplace q package _ _ hq' with rfl | hq''
      · exact hins.1
      · exact hins.2 q (hinv q hq'')
  · -- update
    cases hd : s.manifest.dependencies with
    | none =>
      intro _
      simpa [updateCmd, hd] using hinv
    | some deps =>
      have hinv' : ∀ q, q ∈ keysOf deps → (lookupC q s.cache).isSome = true := by
        intro q hq
        exact hinv q (by simpa [depsList, hd] using hq)
      by_cases hemp : deps.isEmpty
      · intro _
        simpa [updateCmd, hd, hemp] using hinv
      · cases target with
        | some p =>
          cases hlp : lookupD p deps with
          | none =>
            intro he
            simp [updateCmd, hd, hemp, hlp] at he
          | some v =>
            rcases h1 : updOne oracle fault p v deps s.cache with ⟨e1, d1, c1, evs1⟩
            cases e1 with
            | some e =>
              intro he
              simp [updateCmd, hd, hemp, hlp, h1] at he
            | none =>
              intro _
              simp only [updateCmd, hd, hemp, hlp, h1]
              intro q hq
              simp only [depsList, Option.getD] at hq
              exact updOne_ok oracle fault p v deps d1 s.cache c1 evs1 h1 hinv' q hq
        | none =>
          rcases h1 : updAllGo oracle fault deps deps s.cache with ⟨e1, d1, c1, evs1⟩
          cases e1 with
          | some e =>
            intro he
            simp [updateCmd, hd, hemp, h1] at he
          | none =>
            intro _
            simp only [updateCmd, hd, hemp, h1]
            intro q hq
            simp only [depsList, Option.getD] at hq
            exact updAllGo_ok oracle fault deps deps s.cache d1 c1 evs1 h1 hinv' q hq

/-- Witness: the demo project (dependency `a`, installed) through the
three commands with a no-update registry and no faults. -/
theorem C4_invariant_preserved_witness :
    cacheInvariant (setupCmd noFault demoSt).state ∧
    cacheInvariant (addCmd noFault "b" none demoSt).state ∧
    cacheInvariant (updateCmd (fun _ _ => false) noFault none demoSt).state :=
  ⟨(C4_invariant_preserved (fun _ _ => false) noFault "b" none none demoSt
      (by decide)).1 (by decide),
   (C4_invariant_preserved (fun _ _ => false) noFault "b" none none demoSt
      (by decide)).2.1 (by decide),
   (C4_invariant_preserved (fun _ _ => false) noFault "b" none none demoSt
      (by decide)).2.2 (by decide)⟩

/-! ### Trace lemmas for C9 -/

theorem countWrites_append (a b : List Ev) :
    countWrites (a ++ b) = countWrites a + countWrites b := by
  simp [countWrites, List.filter_append]

theorem updOne_no_write (oracle : String → String → Bool) (fault : String → Bool)
    (p v : String) (deps : List (String × String)) (c : Cache) :
    countWrites (updOne oracle fault p v deps c).2.2.2 = 0 := by
  unfold updOne
  by_cases he : check_latest_version p v (oracle p v) = v
  · simp [he, countWrites]
  · rw [if_neg he]
    dsimp only
    by_cases hf : fault p <;> by_cases hr : (lookupC p c).isSome = true <;>
      simp [install_package_upd, hf, hr, countWrites, isWrite]

theorem updAllGo_no_write (oracle : String → String → Bool) (fault : String → Bool) :
    ∀ (todo deps : List (String × String)) (c : Cache),
      countWrites (updAllGo oracle fault todo deps c).2.2.2 = 0 := by
  intro todo
  induction todo with
  | nil =>
    intro deps c
    simp [updAllGo, countWrites]
  | cons pv t ih =>
    intro deps c
    rcases pv with ⟨p, v⟩
    unfold updAllGo
    rcases h1 : updOne oracle fault p v deps c with ⟨e1, d1, c1, evs1⟩
    have hw1 : countWrites evs1 = 0 := by
      have := updOne_no_write oracle fault p v deps c
      rw [h1] at this
      exact this
    cases e1 with
    | some e =>
      simpa using hw1
    | none =>
      dsimp only
      rcases h2 : updAllGo oracle fault t d1 c1 with ⟨e2, d2, c2, evs2⟩
      have hw2 : countWrites evs2 = 0 := by
        have := ih d1 c1
        rw [h2] at this
        exact this
      simp [countWrites_append, hw1, hw2]

theorem updOne_ok_no_fail (oracle : String → String → Bool) (fault : String → Bool)
    (p v : String) (deps deps' : List (String × String)) (c c' : Cache) (evs : List Ev)
    (h : updOne oracle fault p v deps c = (none, deps', c', evs)) :
    ∀ q, Ev.installFailed q ∉ evs := by
  unfold updOne at h
  by_cases he : check_latest_version p v (oracle p v) = v
  · rw [if_pos he] at h
    simp only [Prod.mk.injEq] at h
    obtain ⟨-, -, -, hevs⟩ := h
    subst hevs
    simp
  · rw [if_neg he] at h
    dsimp only at h
    by_cases hf : fault p
    · simp [install_package_upd, hf] at h
    · by_cases hr : (lookupC p c).isSome = true <;>
        · simp only [install_package_upd, hf, if_pos, if_neg, hr, if_false, if_true,
            Bool.false_eq_true, Prod.mk.injEq] at h
          obtain ⟨-, -, -, hevs⟩ := h
          subst hevs
          simp

theorem updOne_fail_trace (oracle : String → String → Bool) (fault : String → Bool)
    (p v : String) (deps deps' : List (String × String)) (c c' : Cache) (evs : List Ev)
    (e : Err) (h : updOne oracle fault p v deps c = (some e, deps', c', evs)) :
    e = .ioError ∧ evs.getLast? = some (Ev.installFailed p) ∧
    ∀ q, Ev.installFailed q ∈ evs → q = p := by
  unfold updOne at h
  by_cases he : check_latest_version p v (oracle p v) = v
  · rw [if_pos he] at h
    simp at h
  · rw [if_neg he] at h
    dsimp only at h
    by_cases hf : fault p
    · by_cases hr : (lookupC p c).isSome = true <;>
        · simp only [install_package_upd, hf, hr, if_true, if_false, Bool.false_eq_true,
            if_pos, if_neg, Prod.mk.injEq, Option.some.injEq] at h
          obtain ⟨hee, -, -, hevs⟩ := h
          subst hevs
          exact ⟨hee.symm, rfl, by intro q hq; simpa using hq⟩
    · by_cases hr : (lookupC p c).isSome = true <;>
        simp [install_package_upd, hf, hr] at h

theorem updAllGo_fail_trace (oracle : String → String → Bool) (fault : String → Bool) :
    ∀ (todo deps : List (String × String)) (c : Cache) (e : Err)
      (deps' : List (String × String)) (c' : Cache) (evs : List Ev),
      updAllGo oracle fault todo deps c = (some e, deps', c', evs) →
      e = .ioError ∧
      ∀ q, Ev.installFailed q ∈ evs → evs.getLast? = some (Ev.installFailed q) := by
  intro todo
  induction todo with
  | nil =>
    intro deps c e deps' c' evs h
    simp [updAllGo] at h
  | cons pv t ih =>
    intro deps c e deps' c' evs h
    rcases pv with ⟨p, v⟩
    unfold updAllGo at h
    rcases h1 : updOne oracle fault p v deps c with ⟨e1, d1, c1, evs1⟩
    rw [h1] at h
    cases e1 with
    | some e1' =>
      dsimp only at h
      simp only [Prod.mk.injEq, Option.some.injEq] at h
      obtain ⟨he1, -, -, hevs⟩ := h
      subst he1
      subst hevs
      have hfail := updOne_fail_trace oracle fault p v deps d1 c c1 evs1 e1' h1
      refine ⟨hfail.1, ?_⟩
      intro q hq
      rw [hfail.2.2 q hq]
      exact hfail.2.1
    | none =>
      dsimp only at h
      rcases h2 : updAllGo oracle fault t d1 c1 with ⟨e2, d2, c2, evs2⟩
      rw [h2] at h
      dsimp only at h
      simp only [Prod.mk.injEq] at h
      obtain ⟨he2, -, -, hevs⟩ := h
      subst hevs
      subst he2
      have hrest := ih d1 c1 e d2 c2 evs2 h2
      refine ⟨hrest.1, ?_⟩
      intro q hq
      rcases List.mem_append.mp hq with hq1 | hq2
      · exact absurd hq1 (updOne_ok_no_fail oracle fault p v deps d1 c c1 evs1 h1 q)
      · rw [List.getLast?_append_of_ne_nil evs1 (List.ne_nil_of_mem hq2)]
        exact hrest.2 q hq2

/-! ### C9 -/

/-- C9: `update` over all dependencies (a present, non-empty map) writes the
manifest exactly once, as the last filesystem event of the run, covering the
whole batch; when an install fails mid-batch the run aborts at once — the
failure is the last event (no later package is processed), no manifest write
happens, and the on-disk manifest is unchanged. -/
theorem C9_update_all_batch (oracle : String → String → Bool) (fault : String → Bool)
    (s : St) (deps : List (String × String))
    (hd : s.manifest.dependencies = some deps) (hne : deps ≠ []) :
    ((updateCmd oracle fault none s).err = none →
      countWrites (updateCmd oracle fault none s).trace = 1 ∧
      ∃ m, (updateCmd oracle fault none s).trace.getLast? = some (Ev.writeManifest m)) ∧
    (∀ e, (updateCmd oracle fault none s).err = some e →
      e = Err.ioError ∧
      countWrites (updateCmd oracle fault none s).trace = 0 ∧
      (updateCmd oracle fault none s).state.manifest = s.manifest ∧
      ∀ p, Ev.installFailed p ∈ (updateCmd oracle fault none s).trace →
        (updateCmd oracle fault none s).trace.getLast? = some (Ev.installFailed p)) := by
  have hemp : deps.isEmpty = false := by
    cases deps with
    | nil => exact absurd rfl hne
    | cons a t => rfl
  rcases hg : updAllGo oracle fault deps deps s.cache with ⟨e1, d1, c1, evs1⟩
  have hnw : countWrites evs1 = 0 := by
    have := updAllGo_no_write oracle fault deps deps s.cache
    rw [hg] at this
    exact this
  cases e1 with
  | none =>
    have hres : updateCmd oracle fault none s =
        ⟨none, ⟨{ s.manifest with dependencies := some d1 }, c1⟩,
          evs1 ++ [Ev.writeManifest { s.manifest with dependencies := some d1 }]⟩ := by
      simp [updateCmd, hd, hemp, hg]
    constructor
    · intro _
      constructor
      · simp only [hres]
        rw [countWrites_append, hnw]
        rfl
      · refine ⟨{ s.manifest with dependencies := some d1 }, ?_⟩
        simp only [hres]
        exact List.getLast?_concat _
    · intro e he
      rw [hres] at he
      simp at he
  | some e1' =>
    have hres : updateCmd oracle fault none s = ⟨some e1', ⟨s.manifest, c1⟩, evs1⟩ := by
      simp [updateCmd, hd, hemp, hg]
    constructor
    · intro he
      rw [hres] at he
      simp at he
    · intro e he
      rw [hres] at he
      have hee : e1' = e := by simpa using he
      subst hee
      have hfail := updAllGo_fail_trace oracle fault deps deps s.cache e1' d1 c1 evs1 hg
      refine ⟨hfail.1, ?_, ?_, ?_⟩
      · simp only [hres]
        exact hnw
      · simp [hres]
      · intro p hp
        simp only [hres] at hp ⊢
        exact hfail.2 p hp

/-- Witness: the demo project with a registry reporting an update for `a`
and no faults: one manifest write, at the end. -/
theorem C9_update_all_batch_witness :
    countWrites (updateCmd (fun _ _ => true) noFault none demoSt).trace = 1 ∧
    ∃ m, (updateCmd (fun _ _ => true) noFault none demoSt).trace.getLast? =
      some (Ev.writeManifest m) :=
  (C9_update_all_batch (fun _ _ => true) noFault demoSt [("a", "1.0.0")]
    rfl (by decide)).1 (by decide)

end Sop
